import Mathlib

/-!
Verification of the timezone-aware reminder scheduling engine of the
grateful-bot repository. The Python source is shallowly embedded:

* `src/domain/entities.py` — the `User` and `TimezoneReminderSchedule`
  dataclasses become Lean structures.
* `src/application/services/timezone_service.py` —
  `TimezoneService.convert_local_to_utc` and
  `TimezoneService.group_users_by_timezone`.
* `src/application/services/reminder_service.py` —
  `ReminderService.generate_random_time`,
  `ReminderService.schedule_timezone_aware_reminders` and
  `ReminderService.get_users_for_timezone_reminder`.
* `src/infrastructure/firebase.py` —
  `FirebaseTimezoneReminderScheduleRepository.create_schedule` and
  `get_schedules_for_date`, with the Firestore collection modelled as a
  list of documents with upsert-by-id semantics.
* `src/presentation/telegram_bot.py` —
  `GratefulBot._schedule_timezone_aware_reminders_for_today` (the arming
  loop of the dispatch layer).

External collaborators (the pytz timezone database, the random number
generator, Firestore failures, the wall clock) are passed in as explicit
parameters, so every embedded function is a pure total function of its
inputs. Naive Python `datetime` values are points on an integer minute
timeline; `datetime.combine` maps a date and a time-of-day onto it via
the proleptic-Gregorian ordinal (CPython's `date.toordinal`).
-/

/-- A Python `datetime.date`: year, month, day. -/
structure PyDate where
  year : Nat
  month : Nat
  day : Nat
deriving DecidableEq

/-- A Python `datetime.time` as built by the code under study: hour and
minute (seconds and microseconds are always zero there). -/
structure PyTime where
  hour : Nat
  minute : Nat
deriving DecidableEq

/-- Minutes since midnight of a time-of-day. -/
def PyTime.toMinutes (t : PyTime) : Nat :=
  t.hour * 60 + t.minute

/-- Leap-year test of the proleptic Gregorian calendar (CPython's
`_is_leap`). -/
def PyDate.isLeap (y : Nat) : Bool :=
  (y % 4 == 0 && y % 100 != 0) || y % 400 == 0

/-- Days in the months before month `m` (1-based), CPython's
`_days_before_month`. -/
def PyDate.daysBeforeMonth (m : Nat) (leap : Bool) : Nat :=
  let base :=
    match m with
    | 1 => 0 | 2 => 31 | 3 => 59 | 4 => 90 | 5 => 120 | 6 => 151
    | 7 => 181 | 8 => 212 | 9 => 243 | 10 => 273 | 11 => 304 | _ => 334
  if leap && m > 2 then base + 1 else base

/-- Proleptic-Gregorian ordinal of a date (CPython's `date.toordinal`):
day 1 is 0001-01-01. Naive-`datetime` arithmetic in the Python code is
timedelta arithmetic over this ordinal. -/
def PyDate.toOrdinal (d : PyDate) : Nat :=
  let y := d.year - 1
  365 * y + y / 4 - y / 100 + y / 400 + PyDate.daysBeforeMonth d.month (PyDate.isLeap d.year) + d.day

/-- A naive Python `datetime` as minutes on the ordinal timeline:
`datetime.combine(target_date, local_time)`. -/
def combine (d : PyDate) (t : PyTime) : Int :=
  (d.toOrdinal : Int) * 1440 + (t.toMinutes : Int)

/-- Left zero-padding to two digits, as in `date.isoformat`. -/
def pad2 (n : Nat) : String :=
  if n < 10 then "0" ++ toString n else toString n

/-- Left zero-padding to four digits, as in `date.isoformat`. -/
def pad4 (n : Nat) : String :=
  if n < 10 then "000" ++ toString n
  else if n < 100 then "00" ++ toString n
  else if n < 1000 then "0" ++ toString n
  else toString n

/-- `date.isoformat()`: `YYYY-MM-DD`. -/
def PyDate.isoformat (d : PyDate) : String :=
  pad4 d.year ++ "-" ++ pad2 d.month ++ "-" ++ pad2 d.day

/-- The `User` dataclass of `src/domain/entities.py`, restricted to the
fields the scheduling engine reads (`user_id`, `first_name`,
`timezone`). `timezone = none` models Python `None`. -/
structure User where
  user_id : Nat
  first_name : String
  timezone : Option String
deriving DecidableEq

/-- Python truthiness of an `Optional[str]`: `not x` holds exactly for
`None` and the empty string. -/
def strFalsy : Option String → Bool
  | none => true
  | some s => s == ""

/-- The key `user.timezone or 'UTC'` used by `group_users_by_timezone`:
a falsy preference defaults to `'UTC'`. -/
def userKey (u : User) : String :=
  match u.timezone with
  | none => "UTC"
  | some s => if s == "" then "UTC" else s

/-- Insertion into a Python `dict` keyed by timezone, as performed by
the loop body of `group_users_by_timezone`: append `uid` to the existing
group for `tz`, or append a fresh singleton group (insertion order). -/
def addToGroup : List (String × List Nat) → String → Nat → List (String × List Nat)
  | [], tz, uid => [(tz, [uid])]
  | (k, v) :: rest, tz, uid =>
    if k = tz then (k, v ++ [uid]) :: rest
    else (k, v) :: addToGroup rest tz uid

/-- `TimezoneService.group_users_by_timezone`
(`src/application/services/timezone_service.py`, lines 76–87): group
users by `user.timezone or 'UTC'`, collecting `user_id`s, returned as an
insertion-ordered association list (the Python `dict`). -/
def group_users_by_timezone (users : List User) : List (String × List Nat) :=
  users.foldl (fun gs u => addToGroup gs (userKey u) u.user_id) []

/-- Reading a group out of the association list: `groups[tz]`, with `[]`
for a missing key. -/
def findGroup : List (String × List Nat) → String → List Nat
  | [], _ => []
  | (k, v) :: rest, tz => if k = tz then v else findGroup rest tz

/-- `ReminderService.generate_random_time`
(`src/application/services/reminder_service.py`, lines 41–47), with the
outcome `r` of `random.randint(9 * 60, 20 * 60)` made explicit
(`randint` is inclusive on both ends, so `540 ≤ r ≤ 1200`). -/
def generate_random_time (r : Nat) : PyTime :=
  { hour := r / 60, minute := r % 60 }

/-- `ReminderService.get_users_for_timezone_reminder`
(`src/application/services/reminder_service.py`, lines 114–125): fresh
cohort fetch at dispatch time. For `'UTC'` it keeps users with a falsy
timezone; otherwise users whose timezone equals the argument. -/
def get_users_for_timezone_reminder (all_users : List User) (timezone : String) : List User :=
  if timezone = "UTC" then
    all_users.filter (fun u => strFalsy u.timezone)
  else
    all_users.filter (fun u => u.timezone == some timezone)

-- ### Association-list lemmas for the grouping fold

theorem findGroup_addToGroup (gs : List (String × List Nat)) (tz tz' : String) (uid : Nat) :
    findGroup (addToGroup gs tz uid) tz' =
      if tz' = tz then findGroup gs tz ++ [uid] else findGroup gs tz' := by
  induction gs with
  | nil =>
    by_cases h : tz' = tz
    · simp [addToGroup, findGroup, h]
    · have h2 : ¬ tz = tz' := fun hc => h hc.symm
      simp [addToGroup, findGroup, h, h2]
  | cons p rest ih =>
    obtain ⟨k, v⟩ := p
    by_cases hk : k = tz
    · subst hk
      by_cases h : tz' = k
      · subst h; simp [addToGroup, findGroup]
      · have h2 : ¬ k = tz' := fun hc => h hc.symm
        simp [addToGroup, findGroup, h, h2]
    · by_cases h : tz' = k
      · subst h
        simp [addToGroup, findGroup, hk]
      · have h2 : ¬ k = tz' := fun hc => h hc.symm
        simp [addToGroup, findGroup, hk, h, h2, ih]

theorem findGroup_foldl (us : List User) (gs : List (String × List Nat)) (tz : String) :
    findGroup (us.foldl (fun gs u => addToGroup gs (userKey u) u.user_id) gs) tz =
      findGroup gs tz ++ (us.filter (fun u => userKey u = tz)).map (·.user_id) := by
  induction us generalizing gs with
  | nil => simp
  | cons u rest ih =>
    by_cases h : userKey u = tz
    · simp [List.foldl_cons, ih, findGroup_addToGroup, h]
    · have h' : ¬ tz = userKey u := fun hc => h hc.symm
      simp [List.foldl_cons, ih, findGroup_addToGroup, h, h']

/-- The contents of each timezone group: the ids of exactly the users
whose coalesced key is that timezone, in input order. -/
theorem findGroup_group_users (users : List User) (tz : String) :
    findGroup (group_users_by_timezone users) tz =
      (users.filter (fun u => userKey u = tz)).map (·.user_id) := by
  simpa [group_users_by_timezone] using findGroup_foldl users [] tz

theorem keys_addToGroup (gs : List (String × List Nat)) (tz : String) (uid : Nat) :
    (addToGroup gs tz uid).map Prod.fst =
      if tz ∈ gs.map Prod.fst then gs.map Prod.fst else gs.map Prod.fst ++ [tz] := by
  induction gs with
  | nil => simp [addToGroup]
  | cons p rest ih =>
    obtain ⟨k, v⟩ := p
    by_cases hk : k = tz
    · subst hk; simp [addToGroup]
    · have hk' : ¬ tz = k := fun hc => hk hc.symm
      by_cases hm : tz ∈ rest.map Prod.fst
      · simp [addToGroup, hk, hk', hm, ih]
      · simp [addToGroup, hk, hk', hm, ih]

theorem keysNodup_addToGroup (gs : List (String × List Nat)) (tz : String) (uid : Nat)
    (h : (gs.map Prod.fst).Nodup) : ((addToGroup gs tz uid).map Prod.fst).Nodup := by
  rw [keys_addToGroup]
  by_cases hm : tz ∈ gs.map Prod.fst
  · simpa [hm] using h
  · simp only [hm, if_false]
    rw [List.nodup_append]
    refine ⟨h, List.nodup_singleton tz, ?_⟩
    intro a ha hb
    rw [List.mem_singleton] at hb
    exact hm (hb ▸ ha)

theorem keysNodup_foldl (us : List User) (gs : List (String × List Nat))
    (h : (gs.map Prod.fst).Nodup) :
    ((us.foldl (fun gs u => addToGroup gs (userKey u) u.user_id) gs).map Prod.fst).Nodup := by
  induction us generalizing gs with
  | nil => simpa using h
  | cons u rest ih => exact ih _ (keysNodup_addToGroup _ _ _ h)

theorem keys_foldl_subset (us : List User) (gs : List (String × List Nat)) :
    ∀ k ∈ (us.foldl (fun gs u => addToGroup gs (userKey u) u.user_id) gs).map Prod.fst,
      k ∈ gs.map Prod.fst ∨ ∃ u ∈ us, userKey u = k := by
  induction us generalizing gs with
  | nil => intro k hk; exact Or.inl (by simpa using hk)
  | cons u rest ih =>
    intro k hk
    rcases ih (addToGroup gs (userKey u) u.user_id) k (by simpa using hk) with h | h
    · rw [keys_addToGroup] at h
      by_cases hm : userKey u ∈ gs.map Prod.fst
      · exact Or.inl (by simpa [hm] using h)
      · simp only [hm, if_false, List.mem_append, List.mem_singleton] at h
        rcases h with h | h
        · exact Or.inl h
        · exact Or.inr ⟨u, by simp, h.symm⟩
    · obtain ⟨u', hu', hkey⟩ := h
      exact Or.inr ⟨u', by simp [hu'], hkey⟩

theorem sum_addToGroup (gs : List (String × List Nat)) (tz : String) (uid : Nat) :
    ((addToGroup gs tz uid).map (fun p => p.2.length)).sum =
      (gs.map (fun p => p.2.length)).sum + 1 := by
  induction gs with
  | nil => simp [addToGroup]
  | cons p rest ih =>
    obtain ⟨k, v⟩ := p
    by_cases hk : k = tz
    · subst hk; simp [addToGroup]; omega
    · simp [addToGroup, hk, ih]; omega

theorem sum_foldl (us : List User) (gs : List (String × List Nat)) :
    (((us.foldl (fun gs u => addToGroup gs (userKey u) u.user_id) gs)).map
        (fun p => p.2.length)).sum =
      (gs.map (fun p => p.2.length)).sum + us.length := by
  induction us generalizing gs with
  | nil => simp
  | cons u rest ih =>
    simp only [List.foldl_cons, ih, sum_addToGroup, List.length_cons]
    omega

theorem findGroup_eq_of_mem (gs : List (String × List Nat))
    (h : (gs.map Prod.fst).Nodup) {p : String × List Nat} (hp : p ∈ gs) :
    findGroup gs p.1 = p.2 := by
  induction gs with
  | nil => cases hp
  | cons q rest ih =>
    obtain ⟨k, v⟩ := q
    rcases List.mem_cons.mp hp with h1 | h1
    · subst h1; simp [findGroup]
    · have hne : ¬ k = p.1 := by
        intro hc
        have : p.1 ∈ rest.map Prod.fst := List.mem_map.mpr ⟨p, h1, rfl⟩
        rw [List.map_cons, List.nodup_cons] at h
        exact h.1 (hc ▸ this)
      have htail : (rest.map Prod.fst).Nodup := by
        rw [List.map_cons, List.nodup_cons] at h
        exact h.2
      simp [findGroup, hne, ih htail h1]

-- ### Claim theorems: grouping and the random time generator

/-- C2 counterexample: `random.randint(540, 1200)` is inclusive of both
endpoints, so the draw 1200 is legal and `generate_random_time` then
returns exactly 20:00, contradicting "t < 20:00, i.e. 20:00 is never a
result". -/
theorem generate_random_time_attains_2000 :
    540 ≤ 1200 ∧ 1200 ≤ 1200 ∧ generate_random_time 1200 = ⟨20, 0⟩ ∧
      ¬ (generate_random_time 1200).toMinutes < 20 * 60 := by
  decide

/-- C2 (amended): every legal draw `r` of `random.randint(9 * 60, 20 * 60)`
yields a time-of-day in the closed window [09:00, 20:00] — 20:00
inclusive, since `randint` includes its upper bound. -/
theorem generate_random_time_range (r : Nat) (h1 : 540 ≤ r) (h2 : r ≤ 1200) :
    540 ≤ (generate_random_time r).toMinutes ∧ (generate_random_time r).toMinutes ≤ 1200 := by
  have hval : (generate_random_time r).toMinutes = r := by
    simp only [generate_random_time, PyTime.toMinutes]
    omega
  omega

/-- Witness for `generate_random_time_range` at the draw 540. -/
theorem generate_random_time_range_witness :
    540 ≤ (generate_random_time 540).toMinutes ∧ (generate_random_time 540).toMinutes ≤ 1200 :=
  generate_random_time_range 540 (by decide) (by decide)

/-- C8: users with no timezone preference land in the `'UTC'` group,
merged with users whose preference is the explicit string `'UTC'`, and
every group key is either `'UTC'` or an actual preference of some user
(so no separate "null" group ever exists). -/
theorem group_users_null_timezone (users : List User) :
    (∀ u ∈ users, u.timezone = none →
        u.user_id ∈ findGroup (group_users_by_timezone users) "UTC") ∧
    (∀ u ∈ users, u.timezone = some "UTC" →
        u.user_id ∈ findGroup (group_users_by_timezone users) "UTC") ∧
    (∀ k ∈ (group_users_by_timezone users).map Prod.fst,
        k = "UTC" ∨ ∃ u ∈ users, u.timezone = some k) := by
  refine ⟨?_, ?_, ?_⟩
  · intro u hu htz
    rw [findGroup_group_users]
    exact List.mem_map.mpr ⟨u, List.mem_filter.mpr ⟨hu, by simp [userKey, htz]⟩, rfl⟩
  · intro u hu htz
    rw [findGroup_group_users]
    exact List.mem_map.mpr ⟨u, List.mem_filter.mpr ⟨hu, by simp [userKey, htz]⟩, rfl⟩
  · intro k hk
    rcases keys_foldl_subset users [] k (by simpa [group_users_by_timezone] using hk) with h | h
    · simp at h
    · obtain ⟨u, hu, hkey⟩ := h
      by_cases hutc : k = "UTC"
      · exact Or.inl hutc
      · refine Or.inr ⟨u, hu, ?_⟩
        rcases hu' : u.timezone with _ | s
        · simp [userKey, hu'] at hkey
          exact absurd hkey.symm hutc
        · by_cases hs : s = ""
          · simp [userKey, hu', hs] at hkey
            exact absurd hkey.symm hutc
          · simp [userKey, hu', hs] at hkey
            rw [hkey]

/-- Witness for `group_users_null_timezone`: a user with no preference
is found in the `'UTC'` group. -/
theorem group_users_null_timezone_witness :
    (1 : Nat) ∈ findGroup (group_users_by_timezone [⟨1, "A", none⟩]) "UTC" :=
  (group_users_null_timezone [⟨1, "A", none⟩]).1 ⟨1, "A", none⟩ (by simp) rfl

/-- C10: `group_users_by_timezone` partitions its input — group keys are
pairwise distinct, each group holds the ids of exactly the users mapped
to its key in input order, and the group sizes add up to the number of
input users. -/
theorem group_users_partition (users : List User) :
    ((group_users_by_timezone users).map Prod.fst).Nodup ∧
    (∀ p ∈ group_users_by_timezone users,
        p.2 = (users.filter (fun u => userKey u = p.1)).map (·.user_id)) ∧
    ((group_users_by_timezone users).map (fun p => p.2.length)).sum = users.length := by
  have hnodup : ((group_users_by_timezone users).map Prod.fst).Nodup := by
    simpa [group_users_by_timezone] using keysNodup_foldl users [] (by simp)
  refine ⟨hnodup, ?_, ?_⟩
  · intro p hp
    rw [← findGroup_eq_of_mem _ hnodup hp, findGroup_group_users]
  · simpa [group_users_by_timezone] using sum_foldl users []

/-- Witness for `group_users_partition`: the single London user's group
is exactly the filtered id list. -/
theorem group_users_partition_witness :
    (("Europe/London", [1]) : String × List Nat).2 =
      (([⟨1, "A", some "Europe/London"⟩] : List User).filter
          (fun u => userKey u = "Europe/London")).map (·.user_id) :=
  (group_users_partition [⟨1, "A", some "Europe/London"⟩]).2.1
    ("Europe/London", [1]) (by decide)

/-- C7 counterexample: a user whose explicit preference is the string
`'UTC'` is placed in the `'UTC'` group at generation time, but
`get_users_for_timezone_reminder('UTC')` filters on falsy timezones and
so excludes them at dispatch time. -/
theorem cohort_mismatch_explicit_utc :
    findGroup (group_users_by_timezone [⟨1, "A", some "UTC"⟩]) "UTC" = [1] ∧
      (get_users_for_timezone_reminder [⟨1, "A", some "UTC"⟩] "UTC").map (·.user_id) = [] := by
  decide

/-- C7 (amended): as long as no user's preference is the explicit string
`'UTC'`, the dispatch-time cohort fetch agrees with the generation-time
grouping on every key the grouping produced. -/
theorem cohort_matches_grouping (users : List User) (tz : String)
    (hutc : ∀ u ∈ users, u.timezone ≠ some "UTC")
    (hkey : tz ∈ (group_users_by_timezone users).map Prod.fst) :
    (get_users_for_timezone_reminder users tz).map (·.user_id) =
      findGroup (group_users_by_timezone users) tz := by
  have hne : tz ≠ "" := by
    rcases keys_foldl_subset users [] tz
        (by simpa [group_users_by_timezone] using hkey) with h | h
    · simp at h
    · obtain ⟨u, _, hkeyu⟩ := h
      subst hkeyu
      rcases hu' : u.timezone with _ | s
      · simp [userKey, hu']
      · by_cases hs : s = "" <;> simp [userKey, hu', hs]
  rw [findGroup_group_users]
  by_cases htz : tz = "UTC"
  · subst htz
    unfold get_users_for_timezone_reminder
    rw [if_pos rfl]
    congr 1
    apply List.filter_congr
    intro u hu
    have hne' := hutc u hu
    rcases hu' : u.timezone with _ | s
    · simp [strFalsy, userKey, hu']
    · rw [hu'] at hne'
      have hs' : s ≠ "UTC" := fun hc => hne' (by rw [hc])
      by_cases hs : s = ""
      · simp [strFalsy, userKey, hu', hs]
      · simp [strFalsy, userKey, hu', hs, hs']
  · unfold get_users_for_timezone_reminder
    rw [if_neg htz]
    congr 1
    apply List.filter_congr
    intro u hu
    rcases hu' : u.timezone with _ | s
    · simp [userKey, hu', Ne.symm htz]
    · by_cases hst : s = tz
      · subst hst
        simp [userKey, hu', hne]
      · by_cases hs : s = "" <;>
          simp [userKey, hu', hs, hst, Ne.symm htz, Ne.symm hne]

/-- Witness for `cohort_matches_grouping` on a London-only user list. -/
theorem cohort_matches_grouping_witness :
    (get_users_for_timezone_reminder [⟨1, "A", some "Europe/London"⟩] "Europe/London").map
        (·.user_id) =
      findGroup (group_users_by_timezone [⟨1, "A", some "Europe/London"⟩]) "Europe/London" :=
  cohort_matches_grouping [⟨1, "A", some "Europe/London"⟩] "Europe/London"
    (by decide) (by decide)

-- ### Time conversion (`TimezoneService.convert_local_to_utc`)

/-- `TimezoneService.convert_local_to_utc`
(`src/application/services/timezone_service.py`, lines 56–74). The pytz
library is an external collaborator, passed in as `rules`:
`rules z = none` models `pytz.timezone(z)` raising
`UnknownTimeZoneError`; `rules z = some off` gives the timezone's
localization function, where `off d t = some o` is the UTC offset (in
minutes) pytz assigns to the local datetime `combine d t` and
`off d t = none` models `localize(..., is_dst=None)` raising an
`AmbiguousTimeError`/`NonExistentTimeError`. The `try/except` of the
source maps every failure to the UTC fallback
`datetime.combine(target_date, local_time)`. -/
def convert_local_to_utc (rules : String → Option (PyDate → PyTime → Option Int))
    (local_time : PyTime) (timezone_str : Option String) (target_date : PyDate) : Int :=
  match timezone_str with
  | none => combine target_date local_time
  | some z =>
    if z == "" || z == "UTC" then combine target_date local_time
    else
      match rules z with
      | none => combine target_date local_time
      | some off =>
        match off target_date local_time with
        | none => combine target_date local_time
        | some o => combine target_date local_time - o

/-- C3: with a falsy or `'UTC'` timezone the conversion is the naive
combination taken as UTC directly; with a known timezone whose
localization succeeds it is that combination minus the UTC offset pytz
assigns on that calendar date (daylight-saving aware through `rules`). -/
theorem convert_local_to_utc_spec (rules : String → Option (PyDate → PyTime → Option Int))
    (t : PyTime) (d : PyDate) :
    (∀ tzs : Option String, (tzs = none ∨ tzs = some "" ∨ tzs = some "UTC") →
        convert_local_to_utc rules t tzs d = combine d t) ∧
    (∀ (z : String) (off : PyDate → PyTime → Option Int) (o : Int),
        z ≠ "" → z ≠ "UTC" → rules z = some off → off d t = some o →
        convert_local_to_utc rules t (some z) d = combine d t - o) := by
  constructor
  · intro tzs htzs
    rcases htzs with h | h | h <;> subst h <;> simp [convert_local_to_utc]
  · intro z off o hz hzutc hrules hoff
    simp only [convert_local_to_utc, hrules, hoff]
    rw [if_neg (by simp [hz, hzutc])]

/-- Witness for `convert_local_to_utc_spec`: a one-hour-offset zone on a
fixed date. -/
theorem convert_local_to_utc_spec_witness :
    convert_local_to_utc
        (fun z => if z = "Europe/Berlin" then some (fun _ _ => some 120) else none)
        ⟨14, 30⟩ (some "Europe/Berlin") ⟨2024, 6, 15⟩ =
      combine ⟨2024, 6, 15⟩ ⟨14, 30⟩ - 120 :=
  (convert_local_to_utc_spec _ ⟨14, 30⟩ ⟨2024, 6, 15⟩).2 "Europe/Berlin"
    (fun _ _ => some 120) 120 (by decide) (by decide) (by simp) rfl

/-- C4: the conversion is total and fail-open — an unknown timezone or a
failing localization falls back to the naive UTC interpretation, and on
every input the result is either that fallback or the offset-shifted
instant (no exception ever escapes the embedded `try/except`). -/
theorem convert_local_to_utc_fail_open (rules : String → Option (PyDate → PyTime → Option Int))
    (t : PyTime) (d : PyDate) :
    (∀ z : String, rules z = none →
        convert_local_to_utc rules t (some z) d = combine d t) ∧
    (∀ (z : String) (off : PyDate → PyTime → Option Int),
        rules z = some off → off d t = none →
        convert_local_to_utc rules t (some z) d = combine d t) ∧
    (∀ tzs : Option String, convert_local_to_utc rules t tzs d = combine d t ∨
        ∃ o : Int, convert_local_to_utc rules t tzs d = combine d t - o) := by
  refine ⟨?_, ?_, ?_⟩
  · intro z hz
    simp [convert_local_to_utc, hz]
  · intro z off hrules hoff
    simp [convert_local_to_utc, hrules, hoff]
  · intro tzs
    rcases tzs with _ | z
    · exact Or.inl rfl
    · simp only [convert_local_to_utc]
      by_cases hguard : (z == "" || z == "UTC") = true
      · rw [if_pos hguard]
        exact Or.inl rfl
      · rw [if_neg hguard]
        rcases hr : rules z with _ | off
        · simp only [hr]
          exact Or.inl trivial
        · rcases ho : off d t with _ | o
          · simp only [hr, ho]
            exact Or.inl trivial
          · simp only [hr, ho]
            exact Or.inr ⟨o, rfl⟩

/-- Witness for `convert_local_to_utc_fail_open`: an unknown timezone
name falls back to the direct UTC interpretation. -/
theorem convert_local_to_utc_fail_open_witness :
    convert_local_to_utc (fun _ => none) ⟨14, 30⟩ (some "Mars/Olympus") ⟨2024, 6, 15⟩ =
      combine ⟨2024, 6, 15⟩ ⟨14, 30⟩ :=
  (convert_local_to_utc_fail_open (fun _ => none) ⟨14, 30⟩ ⟨2024, 6, 15⟩).1 "Mars/Olympus" rfl

-- ### The schedule store (`FirebaseTimezoneReminderScheduleRepository`)

/-- The `TimezoneReminderSchedule` dataclass of `src/domain/entities.py`.
`utc_time` and `created_at` are naive datetimes on the minute
timeline. -/
structure TimezoneReminderSchedule where
  id : Option String
  date : PyDate
  timezone : String
  base_time : PyTime
  utc_time : Int
  sent_status : Bool
  users_count : Nat
  users_sent : Nat
  created_at : Int
deriving DecidableEq

/-- The Firestore document id built by `create_schedule`
(`src/infrastructure/firebase.py`, line 192):
`f"{schedule.date.isoformat()}_{schedule.timezone.replace('/', '_')}"`. -/
def scheduleDocId (s : TimezoneReminderSchedule) : String :=
  s.date.isoformat ++ "_" ++ s.timezone.replace "/" "_"

/-- Firestore `document(doc_id).set(data)`: upsert by document id into
the collection, modelled as a list of documents. -/
def setDoc (store : List TimezoneReminderSchedule) (doc : TimezoneReminderSchedule) :
    List TimezoneReminderSchedule :=
  if store.any (fun s => s.id == doc.id) then
    store.map (fun s => if s.id == doc.id then doc else s)
  else
    store ++ [doc]

/-- `FirebaseTimezoneReminderScheduleRepository.create_schedule`
(`src/infrastructure/firebase.py`, lines 189–208): compute the doc id,
upsert the record under it, and return the record with its id set. -/
def create_schedule (store : List TimezoneReminderSchedule)
    (schedule : TimezoneReminderSchedule) :
    TimezoneReminderSchedule × List TimezoneReminderSchedule :=
  let saved := { schedule with id := some (scheduleDocId schedule) }
  (saved, setDoc store saved)

/-- `FirebaseTimezoneReminderScheduleRepository.get_schedules_for_date`
(`src/infrastructure/firebase.py`, lines 219–238): query the collection
by the `date` field. -/
def get_schedules_for_date (store : List TimezoneReminderSchedule) (target_date : PyDate) :
    List TimezoneReminderSchedule :=
  store.filter (fun s => s.date == target_date)

theorem mem_setDoc (store : List TimezoneReminderSchedule) (doc : TimezoneReminderSchedule) :
    doc ∈ setDoc store doc := by
  unfold setDoc
  by_cases h : store.any (fun s => s.id == doc.id)
  · rw [if_pos h]
    obtain ⟨s, hs, hid⟩ := List.any_eq_true.mp h
    exact List.mem_map.mpr ⟨s, hs, by simp [hid]⟩
  · rw [if_neg h]
    simp

/-- C9: the record returned by `create_schedule` carries the id
`{date.isoformat()}_{timezone with '/' replaced by '_'}`, and the
document persisted under that id is that very record. -/
theorem create_schedule_doc_id (store : List TimezoneReminderSchedule)
    (schedule : TimezoneReminderSchedule) :
    ((create_schedule store schedule).1).id =
        some (schedule.date.isoformat ++ "_" ++ schedule.timezone.replace "/" "_") ∧
      (create_schedule store schedule).1 ∈ (create_schedule store schedule).2 := by
  constructor
  · rfl
  · exact mem_setDoc store _

-- ### Schedule generation (`ReminderService.schedule_timezone_aware_reminders`)

/-- The collaborators `ReminderService` reaches during one generation
pass, made explicit: the eligible-user fetch, the `random.randint`
outcome already turned into a base time, the pytz database, and the
`datetime.now()` used for `created_at`. -/
structure SchedulerEnv where
  users : List User
  baseTime : PyTime
  tzRules : String → Option (PyDate → PyTime → Option Int)
  now : Int

/-- The `for timezone, user_ids in timezone_groups.items()` loop of
`schedule_timezone_aware_reminders`
(`src/application/services/reminder_service.py`, lines 84–109). Each
iteration first converts the base time for its timezone, then evaluates
`TimezoneReminderSchedule(date=..., timezone=..., base_time=...,
utc_time=..., users_count=..., sent_status=False)`. The dataclass
(`src/domain/entities.py`, line 44) declares `id: Optional[str]` with no
default, so `id` is a required constructor argument, and the call omits
it: the first iteration raises
`TypeError: __init__() missing 1 required positional argument: id`
before reaching the `try` that wraps only the repository write. Nothing
is persisted and later groups are never reached. Returns the outcome,
the final store, and the number of `create_schedule` calls made. -/
def scheduleLoop (env : SchedulerEnv) (target_date : PyDate) :
    List (String × List Nat) → List TimezoneReminderSchedule →
      List TimezoneReminderSchedule →
      Except String (List TimezoneReminderSchedule) × List TimezoneReminderSchedule × Nat
  | [], created, store => (Except.ok created, store, 0)
  | (timezone, _user_ids) :: _rest, _created, store =>
    let _utc_time := convert_local_to_utc env.tzRules env.baseTime (some timezone) target_date
    (Except.error "TypeError: __init__() missing 1 required positional argument: id",
      store, 0)

/-- `ReminderService.schedule_timezone_aware_reminders`
(`src/application/services/reminder_service.py`, lines 53–112): return
the existing schedules untouched when any exist for the date; return
`[]` when no user has reminders enabled; otherwise group users by
timezone and run the per-timezone creation loop (whose uncaught
`TypeError` propagates out of the method). -/
def schedule_timezone_aware_reminders (env : SchedulerEnv)
    (store : List TimezoneReminderSchedule) (target_date : PyDate) :
    Except String (List TimezoneReminderSchedule) × List TimezoneReminderSchedule × Nat :=
  let existing := get_schedules_for_date store target_date
  if existing ≠ [] then
    (Except.ok existing, store, 0)
  else if env.users = [] then
    (Except.ok [], store, 0)
  else
    scheduleLoop env target_date (group_users_by_timezone env.users) [] store

/-- C1: generation is idempotent — when the store already holds
schedules for the date, the call returns exactly those, leaves the store
untouched, and performs zero `create_schedule` calls (the early return
precedes the loop, so no exception arises either). -/
theorem schedule_reminders_idempotent (env : SchedulerEnv)
    (store : List TimezoneReminderSchedule) (target_date : PyDate)
    (h : get_schedules_for_date store target_date ≠ []) :
    schedule_timezone_aware_reminders env store target_date =
      (Except.ok (get_schedules_for_date store target_date), store, 0) := by
  unfold schedule_timezone_aware_reminders
  rw [if_pos h]

/-- C5: with no pre-existing schedules and a nonempty user list, the
creation loop's very first iteration raises TypeError from the
`TimezoneReminderSchedule(...)` construction (the required `id` field is
omitted at the call site), before any `create_schedule` call — the store
stays empty, zero create calls are made, and no partial-failure
isolation can take place. Evaluated here at a concrete failing input
with three timezone groups. -/
theorem schedule_reminders_raises_typeerror :
    schedule_timezone_aware_reminders
        ⟨[⟨1, "A", some "Asia/Tokyo"⟩, ⟨2, "B", some "Europe/London"⟩, ⟨3, "C", none⟩],
          ⟨14, 30⟩, fun _ => none, 0⟩ [] ⟨2024, 6, 15⟩ =
      (Except.error "TypeError: __init__() missing 1 required positional argument: id",
        [], 0) := by
  rfl

/-- Witness for `schedule_reminders_idempotent`: a store already holding
one record for the date is returned as-is. -/
theorem schedule_reminders_idempotent_witness :
    schedule_timezone_aware_reminders
        ⟨[⟨1, "A", none⟩], ⟨9, 0⟩, fun _ => none, 0⟩
        [⟨some "2024-06-15_UTC", ⟨2024, 6, 15⟩, "UTC", ⟨14, 30⟩, 7, false, 1, 0, 0⟩]
        ⟨2024, 6, 15⟩ =
      (Except.ok (get_schedules_for_date
          [⟨some "2024-06-15_UTC", ⟨2024, 6, 15⟩, "UTC", ⟨14, 30⟩, 7, false, 1, 0, 0⟩]
          ⟨2024, 6, 15⟩),
        [⟨some "2024-06-15_UTC", ⟨2024, 6, 15⟩, "UTC", ⟨14, 30⟩, 7, false, 1, 0, 0⟩], 0) :=
  schedule_reminders_idempotent _ _ _ (by decide)

-- ### The dispatch arming loop (`GratefulBot`)

/-- One `job_queue.run_once` registration made by
`_schedule_timezone_aware_reminders_for_today`: the callback data
(`timezone`, `date`) and the relative firing delay. -/
structure ArmedJob where
  timezone : String
  date : PyDate
  delay : Int
deriving DecidableEq

/-- The arming loop of
`GratefulBot._schedule_timezone_aware_reminders_for_today`
(`src/presentation/telegram_bot.py`, lines 70–95): for each schedule,
`continue` when `sent_status` is set, `continue` (log only, no send)
when `utc_time <= now`, otherwise register a one-shot job firing after
`utc_time - now`. -/
def armTimezoneJobs (now : Int) (schedules : List TimezoneReminderSchedule) : List ArmedJob :=
  schedules.filterMap (fun s =>
    if s.sent_status then none
    else if s.utc_time ≤ now then none
    else some ⟨s.timezone, s.date, s.utc_time - now⟩)

/-- C6: a job is armed exactly for the schedules that are unsent with a
strictly future instant — an already-sent schedule is never re-armed, an
elapsed one is skipped rather than dispatched immediately — and every
armed job fires strictly later than now. -/
theorem arm_only_pending_future (now : Int) (schedules : List TimezoneReminderSchedule) :
    (∀ j : ArmedJob, j ∈ armTimezoneJobs now schedules ↔
        ∃ s ∈ schedules, s.sent_status = false ∧ now < s.utc_time ∧
          j = ⟨s.timezone, s.date, s.utc_time - now⟩) ∧
    (∀ j ∈ armTimezoneJobs now schedules, 0 < j.delay) := by
  have hchar : ∀ j : ArmedJob, j ∈ armTimezoneJobs now schedules ↔
      ∃ s ∈ schedules, s.sent_status = false ∧ now < s.utc_time ∧
        j = ⟨s.timezone, s.date, s.utc_time - now⟩ := by
    intro j
    rw [armTimezoneJobs, List.mem_filterMap]
    constructor
    · rintro ⟨s, hs, hf⟩
      by_cases h1 : s.sent_status
      · simp [h1] at hf
      · by_cases h2 : s.utc_time ≤ now
        · simp [h1, h2] at hf
        · refine ⟨s, hs, by simpa using h1, by omega, ?_⟩
          simp [h1, h2] at hf
          exact hf.symm
    · rintro ⟨s, hs, h1, h2, rfl⟩
      exact ⟨s, hs, by simp [h1, not_le.mpr h2]⟩
  refine ⟨hchar, ?_⟩
  intro j hj
  obtain ⟨s, _, _, h2, rfl⟩ := (hchar j).mp hj
  simpa using h2

/-- Witness for `arm_only_pending_future`: among a sent schedule, an
elapsed one and a pending one, exactly the pending one is armed. -/
theorem arm_only_pending_future_witness :
    (⟨"Asia/Tokyo", ⟨2024, 6, 15⟩, 50⟩ : ArmedJob) ∈ armTimezoneJobs 100
      [⟨some "a", ⟨2024, 6, 15⟩, "UTC", ⟨14, 30⟩, 120, true, 1, 1, 0⟩,
       ⟨some "b", ⟨2024, 6, 15⟩, "Europe/London", ⟨14, 30⟩, 80, false, 1, 0, 0⟩,
       ⟨some "c", ⟨2024, 6, 15⟩, "Asia/Tokyo", ⟨14, 30⟩, 150, false, 2, 0, 0⟩] :=
  ((arm_only_pending_future 100
      [⟨some "a", ⟨2024, 6, 15⟩, "UTC", ⟨14, 30⟩, 120, true, 1, 1, 0⟩,
       ⟨some "b", ⟨2024, 6, 15⟩, "Europe/London", ⟨14, 30⟩, 80, false, 1, 0, 0⟩,
       ⟨some "c", ⟨2024, 6, 15⟩, "Asia/Tokyo", ⟨14, 30⟩, 150, false, 2, 0, 0⟩]).1
    ⟨"Asia/Tokyo", ⟨2024, 6, 15⟩, 50⟩).mpr
    ⟨⟨some "c", ⟨2024, 6, 15⟩, "Asia/Tokyo", ⟨14, 30⟩, 150, false, 2, 0, 0⟩,
      by decide, rfl, by decide, by decide⟩
